import Mathlib

/-!
Verification of the ChakraCore-Debugger protocol handler against its
natural-language specification.  The definitions below are a shallow
embedding of the C++ sources under `lib/Debugger.ProtocolHandler` and
`lib/Debugger.Service`: each Lean definition mirrors the control flow of
the named C++ function, with the underlying JavaScript engine (the JsRT
diagnostic API) abstracted as explicit outcome parameters, since the
engine itself is outside the repository.
-/

namespace JsDebug

/-- Engine status codes (`JsErrorCode`).  Only the codes that the sources
branch on are distinguished; all remaining nonzero codes are `other`. -/
inductive JsErrorCode where
  | NoError
  | ScriptException
  | ScriptCompile
  | DiagNotAtBreak
  | other (n : Nat)
deriving DecidableEq

/-- The skip decision returned by break handlers (`SkipPauseRequest`). -/
inductive SkipPauseRequest where
  | RequestNoSkip
  | RequestContinue
  | RequestStepFrame
  | RequestStepInto
  | RequestStepOut
deriving DecidableEq

/-- A CDP response (`protocol::Response`): success or an error message. -/
inductive Response where
  | ok
  | err (msg : String)
deriving DecidableEq

/-- Error strings from the anonymous namespace of DebuggerImpl.cpp. -/
def errBreakpointCouldNotResolve : String := "Breakpoint could not be resolved"

def errBreakpointExists : String := "Breakpoint at specified location already exists"

def errBreakpointNotFound : String := "Breakpoint could not be found"

def errInvalidColumnNumber : String := "Invalid column number specified"

def errNotEnabled : String := "Debugger is not enabled"

def errUrlRequired : String := "Either url or urlRegex must be specified"

/-! ## Breakpoint records (`DebuggerBreakpoint`)

The requested query (URL or regex, line, column, condition) plus the
mutable resolution state that the claims read: the engine-assigned id,
negative while unresolved. -/

/-- The two query kinds of a URL breakpoint (`DebuggerBreakpoint::QueryType`). -/
inductive QueryType where
  | Url
  | UrlRegex
deriving DecidableEq

structure DebuggerBreakpoint where
  query : String
  queryType : QueryType
  lineNumber : Int
  columnNumber : Int
  condition : String
  actualId : Int
deriving DecidableEq

/-- Helper to build a breakpoint record for concrete witnesses: a URL
breakpoint already accepted by the engine under id `id` with condition
`cond`. -/
def mkResolvedBp (id : Int) (cond : String) : DebuggerBreakpoint :=
  { query := "foo.js", queryType := QueryType.Url, lineNumber := 2,
    columnNumber := 0, condition := cond, actualId := id }

/-! ## Debugger Agent: pause / step / resume (DebuggerImpl.cpp 242-275)

Each operation returns the CDP response together with the list of calls
it makes into the Debugger Core, so that "acts on the core" is visible
in the model. -/

/-- A call into the Debugger Core made by an agent method. -/
inductive CoreCall where
  | stepOver
  | stepIn
  | stepOut
  | pauseOnNextStatement
  | continueRun
deriving DecidableEq

/-- The part of the Debugger Agent state (`DebuggerImpl`) that the
pause/step/resume group reads: the `m_isEnabled` flag. -/
structure AgentFlags where
  isEnabled : Bool
deriving DecidableEq

/-- `DebuggerImpl::stepOver`: unconditionally calls the core and returns OK. -/
def agentStepOver (_st : AgentFlags) : Response × List CoreCall :=
  (Response.ok, [CoreCall.stepOver])

/-- `DebuggerImpl::stepInto`: unconditionally calls the core and returns OK. -/
def agentStepInto (_st : AgentFlags) : Response × List CoreCall :=
  (Response.ok, [CoreCall.stepIn])

/-- `DebuggerImpl::stepOut`: unconditionally calls the core and returns OK. -/
def agentStepOut (_st : AgentFlags) : Response × List CoreCall :=
  (Response.ok, [CoreCall.stepOut])

/-- `DebuggerImpl::pause`: unconditionally calls the core and returns OK. -/
def agentPause (_st : AgentFlags) : Response × List CoreCall :=
  (Response.ok, [CoreCall.pauseOnNextStatement])

/-- `DebuggerImpl::resume`: fails with `NotEnabled` when the domain is
disabled, otherwise calls `Continue` on the core. -/
def agentResume (st : AgentFlags) : Response × List CoreCall :=
  if !st.isEnabled then
    (Response.err errNotEnabled, [])
  else
    (Response.ok, [CoreCall.continueRun])

/-- C9: `stepOver`, `stepInto`, `stepOut` and `pause` succeed and act on the
core regardless of the enabled flag; among the group only `resume` checks
the flag, failing with `NotEnabled` when the domain is disabled. -/
theorem stepGroup_enabled_checks (st : AgentFlags) :
    agentStepOver st = (Response.ok, [CoreCall.stepOver]) ∧
    agentStepInto st = (Response.ok, [CoreCall.stepIn]) ∧
    agentStepOut st = (Response.ok, [CoreCall.stepOut]) ∧
    agentPause st = (Response.ok, [CoreCall.pauseOnNextStatement]) ∧
    (st.isEnabled = false → agentResume st = (Response.err errNotEnabled, [])) ∧
    (st.isEnabled = true → agentResume st = (Response.ok, [CoreCall.continueRun])) := by
  refine ⟨rfl, rfl, rfl, rfl, ?_, ?_⟩ <;>
    intro h <;> simp [agentResume, h]

/-- Witness for C9 at a concrete disabled and a concrete enabled state. -/
theorem stepGroup_enabled_checks_witness :
    agentResume ⟨false⟩ = (Response.err errNotEnabled, []) ∧
    agentResume ⟨true⟩ = (Response.ok, [CoreCall.continueRun]) ∧
    agentPause ⟨false⟩ = (Response.ok, [CoreCall.pauseOnNextStatement]) :=
  ⟨(stepGroup_enabled_checks ⟨false⟩).2.2.2.2.1 rfl,
   (stepGroup_enabled_checks ⟨true⟩).2.2.2.2.2 rfl,
   (stepGroup_enabled_checks ⟨false⟩).2.2.2.1⟩

/-! ## Conditional-breakpoint skip logic
(DebuggerImpl.cpp 490-577: `EvaluateConditionOnBreakpoint`, `HandleBreakEvent`)

The engine interaction inside the `try` block is abstracted as a single
outcome value describing what the calls `JsCreateStringUtf16`,
`JsDiagEvaluate` and `PropertyHelpers::GetPropertyBoolConvert` did:

* `createStringFailed` — `JsCreateStringUtf16` returned a nonzero status,
  so the evaluation was never attempted;
* `evalErr c`          — `JsDiagEvaluate` returned the nonzero status `c`
  (this includes `ScriptException`, i.e. the condition threw);
* `evalOk b`           — `JsDiagEvaluate` returned `JsNoError` and reading
  the boolean `value` property of the result gave `b`;
* `thrownJsError`      — a C++ `JsErrorException` was thrown somewhere in
  the block (`GetCallFrame(0)` or the boolean property read), which the
  `catch` at the bottom of the function swallows. -/

inductive CondEvalOutcome where
  | createStringFailed
  | evalErr (code : JsErrorCode)
  | evalOk (boolValue : Bool)
  | thrownJsError
deriving DecidableEq

/-- `DebuggerImpl::EvaluateConditionOnBreakpoint`.  `bpMap` is
`m_breakpointMap` in iteration order; the linear search stops at the first
record whose engine-assigned id equals `bpId`. -/
def EvaluateConditionOnBreakpoint (bpMap : List (String × DebuggerBreakpoint))
    (bpId : Int) (eval : CondEvalOutcome) : SkipPauseRequest :=
  if bpId < 0 then
    SkipPauseRequest.RequestNoSkip
  else
    match bpMap.find? (fun p => p.2.actualId = bpId) with
    | none => SkipPauseRequest.RequestNoSkip
    | some p =>
      if p.2.condition.length ≠ 0 then
        match eval with
        | CondEvalOutcome.thrownJsError =>
          -- the catch block swallows the exception and control reaches the
          -- final `return SkipPauseRequest::RequestNoSkip`
          SkipPauseRequest.RequestNoSkip
        | CondEvalOutcome.createStringFailed => SkipPauseRequest.RequestContinue
        | CondEvalOutcome.evalErr _ => SkipPauseRequest.RequestContinue
        | CondEvalOutcome.evalOk b =>
          if b then SkipPauseRequest.RequestNoSkip
          else SkipPauseRequest.RequestContinue
      else
        SkipPauseRequest.RequestNoSkip

/-- The part of a `DebuggerBreak` event that the skip logic reads. -/
structure DebuggerBreakInfo where
  hitBreakpoint : Int
deriving DecidableEq

/-- `DebuggerImpl::HandleBreakEvent`: computes the skip request and, only
on `RequestNoSkip`, emits the `paused` notification.  The returned boolean
records whether `m_frontend.paused` was called. -/
def HandleBreakEvent (shouldSkipAllPauses : Bool)
    (bpMap : List (String × DebuggerBreakpoint)) (breakInfo : DebuggerBreakInfo)
    (eval : CondEvalOutcome) : SkipPauseRequest × Bool :=
  let request :=
    if shouldSkipAllPauses then SkipPauseRequest.RequestContinue
    else EvaluateConditionOnBreakpoint bpMap breakInfo.hitBreakpoint eval
  if request ≠ SkipPauseRequest.RequestNoSkip then
    (request, false)
  else
    (request, true)

/-- C1 counterexample: the claim says that with a registered conditional
breakpoint every evaluation outcome other than a true boolean result —
explicitly including a thrown evaluation exception — yields
`RequestContinue`.  But when a `JsErrorException` is thrown during the
evaluation (outcome `thrownJsError`), the catch handler swallows it and
the function returns `RequestNoSkip`, so the `paused` notification IS
emitted.  Concrete input: breakpoint id 5, condition `"x>10"`. -/
theorem condition_thrown_exception_not_continue :
    EvaluateConditionOnBreakpoint [("bp1", mkResolvedBp 5 "x>10")] 5
        CondEvalOutcome.thrownJsError = SkipPauseRequest.RequestNoSkip ∧
    EvaluateConditionOnBreakpoint [("bp1", mkResolvedBp 5 "x>10")] 5
        CondEvalOutcome.thrownJsError ≠ SkipPauseRequest.RequestContinue ∧
    HandleBreakEvent false [("bp1", mkResolvedBp 5 "x>10")] ⟨5⟩
        CondEvalOutcome.thrownJsError = (SkipPauseRequest.RequestNoSkip, true) := by
  refine ⟨by decide, by decide, by decide⟩

/-- C1 (amended): on a break hit with breakpoint id `B >= 0` whose
registered record has a non-empty condition, the handler returns
`RequestNoSkip` exactly when the evaluation succeeds with a true boolean
`value` property OR a `JsErrorException` was thrown during the evaluation
(the exception is swallowed into a do-not-skip decision); a false result
and engine error codes from string creation or evaluation (including a
script exception raised by the condition itself) yield `RequestContinue`,
in which case no `paused` notification is emitted. -/
theorem condition_eval_skip_decision
    (bpMap : List (String × DebuggerBreakpoint)) (bpId : Int)
    (bp : String × DebuggerBreakpoint) (eval : CondEvalOutcome)
    (hpos : 0 ≤ bpId)
    (hfind : bpMap.find? (fun p => p.2.actualId = bpId) = some bp)
    (hcond : bp.2.condition.length ≠ 0) :
    (EvaluateConditionOnBreakpoint bpMap bpId eval = SkipPauseRequest.RequestNoSkip ↔
      (eval = CondEvalOutcome.evalOk true ∨ eval = CondEvalOutcome.thrownJsError)) ∧
    (EvaluateConditionOnBreakpoint bpMap bpId eval = SkipPauseRequest.RequestContinue ↔
      ¬(eval = CondEvalOutcome.evalOk true ∨ eval = CondEvalOutcome.thrownJsError)) ∧
    ∀ info : DebuggerBreakInfo, info.hitBreakpoint = bpId →
      (HandleBreakEvent false bpMap info eval).2 =
        (EvaluateConditionOnBreakpoint bpMap bpId eval ==
          SkipPauseRequest.RequestNoSkip) := by
  have hneg : ¬bpId < 0 := not_lt.mpr hpos
  constructor
  · cases eval with
    | createStringFailed => simp [EvaluateConditionOnBreakpoint, hneg, hfind, hcond]
    | evalErr c => simp [EvaluateConditionOnBreakpoint, hneg, hfind, hcond]
    | evalOk b =>
      cases b <;> simp [EvaluateConditionOnBreakpoint, hneg, hfind, hcond]
    | thrownJsError => simp [EvaluateConditionOnBreakpoint, hneg, hfind, hcond]
  constructor
  · cases eval with
    | createStringFailed => simp [EvaluateConditionOnBreakpoint, hneg, hfind, hcond]
    | evalErr c => simp [EvaluateConditionOnBreakpoint, hneg, hfind, hcond]
    | evalOk b =>
      cases b <;> simp [EvaluateConditionOnBreakpoint, hneg, hfind, hcond]
    | thrownJsError => simp [EvaluateConditionOnBreakpoint, hneg, hfind, hcond]
  · intro info hinfo
    unfold HandleBreakEvent
    rw [hinfo]
    by_cases h :
        EvaluateConditionOnBreakpoint bpMap bpId eval = SkipPauseRequest.RequestNoSkip <;>
      simp [h]

/-- Witness for C1 (amended) at a concrete map, id and outcome. -/
theorem condition_eval_skip_decision_witness :
    EvaluateConditionOnBreakpoint [("bp1", mkResolvedBp 5 "x>10")] 5
        (CondEvalOutcome.evalOk false) = SkipPauseRequest.RequestContinue ∧
    (HandleBreakEvent false [("bp1", mkResolvedBp 5 "x>10")] ⟨5⟩
        (CondEvalOutcome.evalOk false)).2 = false := by
  have h := condition_eval_skip_decision [("bp1", mkResolvedBp 5 "x>10")] 5 ("bp1", mkResolvedBp 5 "x>10")
    (CondEvalOutcome.evalOk false) (by decide) (by decide) (by decide)
  refine ⟨h.2.1.mpr (by decide), ?_⟩
  rw [h.2.2 ⟨5⟩ rfl]
  rw [h.2.1.mpr (by decide)]
  decide

/-- C10: a break event whose hit breakpoint id is negative, or whose id
matches no record in the map, yields `RequestNoSkip`, and (with the
always-false skip-all-pauses flag clear) the `paused` notification is
emitted — an unknown breakpoint is never silently skipped. -/
theorem unknown_breakpoint_no_skip
    (bpMap : List (String × DebuggerBreakpoint)) (info : DebuggerBreakInfo)
    (eval : CondEvalOutcome)
    (h : info.hitBreakpoint < 0 ∨
      bpMap.find? (fun p => p.2.actualId = info.hitBreakpoint) = none) :
    EvaluateConditionOnBreakpoint bpMap info.hitBreakpoint eval =
      SkipPauseRequest.RequestNoSkip ∧
    HandleBreakEvent false bpMap info eval =
      (SkipPauseRequest.RequestNoSkip, true) := by
  have hmain : EvaluateConditionOnBreakpoint bpMap info.hitBreakpoint eval =
      SkipPauseRequest.RequestNoSkip := by
    rcases h with h | h
    · simp [EvaluateConditionOnBreakpoint, h]
    · by_cases hneg : info.hitBreakpoint < 0
      · simp [EvaluateConditionOnBreakpoint, hneg]
      · simp [EvaluateConditionOnBreakpoint, hneg, h]
  refine ⟨hmain, ?_⟩
  simp [HandleBreakEvent, hmain]

/-- Witness for C10: a negative id and an id absent from the map. -/
theorem unknown_breakpoint_no_skip_witness :
    HandleBreakEvent false [("bp1", mkResolvedBp 5 "x>10")] ⟨(-1)⟩
        (CondEvalOutcome.evalOk false) = (SkipPauseRequest.RequestNoSkip, true) ∧
    HandleBreakEvent false [("bp1", mkResolvedBp 5 "x>10")] ⟨7⟩
        (CondEvalOutcome.evalOk false) = (SkipPauseRequest.RequestNoSkip, true) :=
  ⟨(unknown_breakpoint_no_skip [("bp1", mkResolvedBp 5 "x>10")] ⟨(-1)⟩
      (CondEvalOutcome.evalOk false) (Or.inl (by decide))).2,
   (unknown_breakpoint_no_skip [("bp1", mkResolvedBp 5 "x>10")] ⟨7⟩
      (CondEvalOutcome.evalOk false) (Or.inr (by decide))).2⟩

/-! ## setBreakpointByUrl (DebuggerImpl.cpp 107-187)

Validation (url/urlRegex choice, column check, fingerprint lookup) is
translated directly.  The resolution loop over the script map touches the
engine (`TryLoadScript` / `TryResolveBreakpoint`), so its net effect is
abstracted as a `ResolutionOutcome`: either a `JsErrorException` escaped
the loop (returned as an error response), or the loop completed with a
list of resolved locations, the final state of the breakpoint record, and
the verdict of `ActualBreakpointExists` on it. -/

/-- A CDP `Debugger.Location`. -/
structure Location where
  scriptId : String
  lineNumber : Int
  columnNumber : Int
deriving DecidableEq

/-- Net effect of the `try` block of `setBreakpointByUrl`. -/
inductive ResolutionOutcome where
  | throws (msg : String)
  | completes (locations : List Location) (finalBp : DebuggerBreakpoint)
      (actualExists : Bool)
deriving DecidableEq

/-- Modelled from the spec: `DebuggerBreakpoint::GenerateKey` lives in
DebuggerBreakpoint.cpp, which is not among the provided sources.  The spec
says the fingerprint key is "a deterministic string derived from (query,
query-kind, line, column, condition)"; any injective encoding of that
tuple is faithful. -/
def GenerateKey (url : String) (t : QueryType) (line col : Int)
    (cond : String) : String :=
  (match t with
   | QueryType.Url => "url:"
   | QueryType.UrlRegex => "urlRegex:")
    ++ toString line ++ ":" ++ toString col ++ ":"
    ++ toString cond.length ++ ":" ++ cond ++ url

/-- Arguments of `Debugger.setBreakpointByUrl` (optional ones as `Option`,
mirroring `Maybe<>`). -/
structure SetBpByUrlArgs where
  lineNumber : Int
  url : Option String
  urlRegex : Option String
  columnNumber : Option Int
  condition : Option String
deriving DecidableEq

/-- Result of `setBreakpointByUrl`: the response, the out-param
`breakpointId` (set only when the breakpoint is stored), the out-param
location list, and the breakpoint map after the call. -/
structure SetBpResult where
  response : Response
  breakpointIdOut : Option String
  locations : List Location
  newMap : List (String × DebuggerBreakpoint)
deriving DecidableEq

/-- Body of `setBreakpointByUrl` after the url/urlRegex choice has picked
the query string `url` and kind `t` (DebuggerImpl.cpp 134-186). -/
def setBpWithQuery (args : SetBpByUrlArgs) (url : String) (t : QueryType)
    (bpMap : List (String × DebuggerBreakpoint))
    (resolution : ResolutionOutcome) : SetBpResult :=
  let columnNumber := args.columnNumber.getD 0
  if columnNumber < 0 then
    ⟨Response.err errInvalidColumnNumber, none, [], bpMap⟩
  else
    let condition := args.condition.getD ""
    let key := GenerateKey url t args.lineNumber columnNumber condition
    if (bpMap.find? (fun p => p.1 = key)).isSome then
      ⟨Response.err errBreakpointExists, none, [], bpMap⟩
    else
      match resolution with
      | ResolutionOutcome.throws msg => ⟨Response.err msg, none, [], bpMap⟩
      | ResolutionOutcome.completes locs finalBp actualExists =>
        if actualExists then
          ⟨Response.ok, none, locs, bpMap⟩
        else
          ⟨Response.ok, some key, locs, bpMap ++ [(key, finalBp)]⟩

/-- `DebuggerImpl::setBreakpointByUrl` (DebuggerImpl.cpp 107-187): the
url/urlRegex choice — note that a present `url` wins unconditionally, the
`urlRegex` argument is consulted only when `url` is absent. -/
def setBreakpointByUrl (args : SetBpByUrlArgs)
    (bpMap : List (String × DebuggerBreakpoint))
    (resolution : ResolutionOutcome) : SetBpResult :=
  match args.url with
  | some u => setBpWithQuery args u QueryType.Url bpMap resolution
  | none =>
    match args.urlRegex with
    | some r => setBpWithQuery args r QueryType.UrlRegex bpMap resolution
    | none => ⟨Response.err errUrlRequired, none, [], bpMap⟩

/-- C2 counterexample: the claim says `setBreakpointByUrl` never succeeds
unless exactly one of url/urlRegex is supplied, but a request carrying
BOTH `url:"a.js"` and `urlRegex:"b"` (line 2, empty map, loop completes
with no match) returns OK — `url` simply takes precedence. -/
theorem both_url_and_regex_succeeds :
    (setBreakpointByUrl
      ⟨2, some "a.js", some "b", none, none⟩ []
      (ResolutionOutcome.completes [] (mkResolvedBp (-1) "") false)).response =
      Response.ok := by
  decide

/-- C2 (amended): if neither url nor urlRegex is given, `setBreakpointByUrl`
fails with `UrlRequired`; if at least one is given the URL check passes,
with `url` taking precedence over `urlRegex` when both are present; after
that, an explicitly negative columnNumber fails with `InvalidColumnNumber`,
a request whose fingerprint key is already in the breakpoint map fails
with `BreakpointExists`, and otherwise (resolution loop completing without
an engine exception) the request succeeds. -/
theorem setBreakpointByUrl_validation (args : SetBpByUrlArgs)
    (bpMap : List (String × DebuggerBreakpoint))
    (resolution : ResolutionOutcome) :
    (args.url = none → args.urlRegex = none →
      setBreakpointByUrl args bpMap resolution =
        ⟨Response.err errUrlRequired, none, [], bpMap⟩) ∧
    (∀ u, args.url = some u →
      setBreakpointByUrl args bpMap resolution =
        setBpWithQuery args u QueryType.Url bpMap resolution) ∧
    (∀ r, args.url = none → args.urlRegex = some r →
      setBreakpointByUrl args bpMap resolution =
        setBpWithQuery args r QueryType.UrlRegex bpMap resolution) ∧
    (∀ u t, args.columnNumber.getD 0 < 0 →
      setBpWithQuery args u t bpMap resolution =
        ⟨Response.err errInvalidColumnNumber, none, [], bpMap⟩) ∧
    (∀ u t, ¬args.columnNumber.getD 0 < 0 →
      (bpMap.find? (fun p =>
        p.1 = GenerateKey u t args.lineNumber (args.columnNumber.getD 0)
          (args.condition.getD ""))).isSome →
      setBpWithQuery args u t bpMap resolution =
        ⟨Response.err errBreakpointExists, none, [], bpMap⟩) ∧
    (∀ u t locs finalBp actualExists, ¬args.columnNumber.getD 0 < 0 →
      (bpMap.find? (fun p =>
        p.1 = GenerateKey u t args.lineNumber (args.columnNumber.getD 0)
          (args.condition.getD ""))).isSome = false →
      resolution = ResolutionOutcome.completes locs finalBp actualExists →
      (setBpWithQuery args u t bpMap resolution).response = Response.ok) := by
  refine ⟨?_, ?_, ?_, ?_, ?_, ?_⟩
  · intro h1 h2; simp [setBreakpointByUrl, h1, h2]
  · intro u h; simp [setBreakpointByUrl, h]
  · intro r h1 h2; simp [setBreakpointByUrl, h1, h2]
  · intro u t h; simp [setBpWithQuery, h]
  · intro u t h1 h2; simp [setBpWithQuery, h1, h2]
  · intro u t locs finalBp actualExists h1 h2 h3
    subst h3
    cases actualExists <;> simp [setBpWithQuery, h1, h2]

/-- Witness for C2 (amended), exercising the UrlRequired, negative-column,
fingerprint-collision and success branches at concrete inputs. -/
theorem setBreakpointByUrl_validation_witness :
    (setBreakpointByUrl ⟨2, none, none, none, none⟩ []
      (ResolutionOutcome.completes [] (mkResolvedBp (-1) "") false) =
      ⟨Response.err errUrlRequired, none, [], []⟩) ∧
    (setBpWithQuery ⟨2, some "a.js", none, some (-3), none⟩ "a.js" QueryType.Url []
      (ResolutionOutcome.completes [] (mkResolvedBp (-1) "") false) =
      ⟨Response.err errInvalidColumnNumber, none, [], []⟩) ∧
    (setBpWithQuery ⟨2, some "a.js", none, none, none⟩ "a.js" QueryType.Url
      [(GenerateKey "a.js" QueryType.Url 2 0 "", mkResolvedBp 1 "")]
      (ResolutionOutcome.completes [] (mkResolvedBp (-1) "") false) =
      ⟨Response.err errBreakpointExists, none, [],
        [(GenerateKey "a.js" QueryType.Url 2 0 "", mkResolvedBp 1 "")]⟩) ∧
    (setBpWithQuery ⟨2, some "a.js", none, none, none⟩ "a.js" QueryType.Url []
      (ResolutionOutcome.completes [] (mkResolvedBp (-1) "") false)).response =
      Response.ok := by
  refine ⟨?_, ?_, ?_, ?_⟩
  · exact (setBreakpointByUrl_validation ⟨2, none, none, none, none⟩ []
      (ResolutionOutcome.completes [] (mkResolvedBp (-1) "") false)).1 rfl rfl
  · exact (setBreakpointByUrl_validation ⟨2, some "a.js", none, some (-3), none⟩ []
      (ResolutionOutcome.completes [] (mkResolvedBp (-1) "") false)).2.2.2.1
      "a.js" QueryType.Url (by decide)
  · exact (setBreakpointByUrl_validation ⟨2, some "a.js", none, none, none⟩
      [(GenerateKey "a.js" QueryType.Url 2 0 "", mkResolvedBp 1 "")]
      (ResolutionOutcome.completes [] (mkResolvedBp (-1) "") false)).2.2.2.2.1
      "a.js" QueryType.Url (by decide) (by decide)
  · exact (setBreakpointByUrl_validation ⟨2, some "a.js", none, none, none⟩ []
      (ResolutionOutcome.completes [] (mkResolvedBp (-1) "") false)).2.2.2.2.2
      "a.js" QueryType.Url [] (mkResolvedBp (-1) "") false (by decide) (by decide) rfl

/-! ## Debugger Core event dispatch (Debugger.cpp 242-338)

`Debugger::HandleDebugEvent` and `Debugger::HandleBreak` are modelled as
state transformers that also emit the ordered list of observable actions
(handler invocations, engine calls).  The registered break callback is
abstracted as `Option SkipPauseRequest`: `none` when no callback is
registered (`m_breakEventCallback == nullptr`), otherwise the request the
callback returns. -/

/-- The engine debug event kinds (`JsDiagDebugEvent`). -/
inductive DebugEvent where
  | SourceCompile
  | CompileError
  | Breakpoint
  | StepComplete
  | DebuggerStatement
  | RuntimeException
  | AsyncBreak
deriving DecidableEq

/-- `JsDiagStepType` values used by `HandleBreak`. -/
inductive StepType where
  | stepIn
  | stepOut
  | stepOver
deriving DecidableEq

/-- The Debugger Core flags touched by event dispatch. -/
structure CoreState where
  isEnabled : Bool
  isPaused : Bool
  isRunningNestedMessageLoop : Bool
  shouldPauseOnNextStatement : Bool
deriving DecidableEq

/-- Observable actions performed during event dispatch, in order. -/
inductive CoreAction where
  | processCommandQueue
  | sourceEventCb (success : Bool)
  | requestAsyncBreak
  | handleBreakEnter
  | breakEventCb
  | processDeferredGo
  | waitForDebugger
  | setStepType (t : StepType)
  | resumeEventCb
deriving DecidableEq

/-- `Debugger::HandleBreak` (Debugger.cpp 300-338): reentrancy guard, break
callback, nested pump on `RequestNoSkip`, pending step type, resume
callback.  `breakCb` abstracts `m_breakEventCallback` and the request it
returns; `hasResumeCb` abstracts `m_resumeEventCallback != nullptr`. -/
def HandleBreak (breakCb : Option SkipPauseRequest) (hasResumeCb : Bool)
    (st : CoreState) : CoreState × List CoreAction :=
  if st.isRunningNestedMessageLoop then
    (st, [])
  else
    match breakCb with
    | none => (st, [])
    | some request =>
      let pumpActs :=
        if request = SkipPauseRequest.RequestNoSkip then
          [CoreAction.processDeferredGo, CoreAction.waitForDebugger]
        else []
      let stepActs :=
        if request = SkipPauseRequest.RequestStepFrame ∨
            request = SkipPauseRequest.RequestStepInto then
          [CoreAction.setStepType StepType.stepIn]
        else if request = SkipPauseRequest.RequestStepOut then
          [CoreAction.setStepType StepType.stepOut]
        else []
      let resumeActs := if hasResumeCb then [CoreAction.resumeEventCb] else []
      -- m_isPaused is set then cleared; m_isRunningNestedMessageLoop is set
      -- around the pump and cleared again, so the net state has both false.
      ({ st with isPaused := false, isRunningNestedMessageLoop := false },
        CoreAction.breakEventCb :: (pumpActs ++ stepActs ++ resumeActs))

/-- `Debugger::HandleDebugEvent` (Debugger.cpp 248-289): drain the command
queue, drop everything when disabled, then dispatch on the event kind.
`hasSourceCb` abstracts `m_sourceEventCallback != nullptr`. -/
def HandleDebugEvent (breakCb : Option SkipPauseRequest)
    (hasSourceCb hasResumeCb : Bool) (event : DebugEvent)
    (st : CoreState) : CoreState × List CoreAction :=
  let base := [CoreAction.processCommandQueue]
  if !st.isEnabled then
    (st, base)
  else
    match event with
    | DebugEvent.SourceCompile | DebugEvent.CompileError =>
      let srcActs :=
        if hasSourceCb then
          [CoreAction.sourceEventCb (event = DebugEvent.SourceCompile)]
        else []
      let reArm :=
        if st.shouldPauseOnNextStatement then [CoreAction.requestAsyncBreak]
        else []
      (st, base ++ srcActs ++ reArm)
    | DebugEvent.Breakpoint | DebugEvent.StepComplete
    | DebugEvent.DebuggerStatement | DebugEvent.RuntimeException =>
      let (st2, acts) := HandleBreak breakCb hasResumeCb st
      (st2, base ++ CoreAction.handleBreakEnter :: acts)
    | DebugEvent.AsyncBreak =>
      if st.shouldPauseOnNextStatement then
        let st1 := { st with shouldPauseOnNextStatement := false }
        let (st2, acts) := HandleBreak breakCb hasResumeCb st1
        (st2, base ++ CoreAction.handleBreakEnter :: acts)
      else
        (st, base)

/-- C4: on an `AsyncBreak` event (with the core enabled, the state the
dispatch table describes), `handleBreak` is invoked iff the
`shouldPauseOnNextStatement` flag is set; the flag is cleared before
`handleBreak` runs (the state passed to it already has the flag clear);
and an `AsyncBreak` arriving while the flag is clear performs only the
command-queue drain, never entering the break path. -/
theorem asyncBreak_respects_pause_flag (breakCb : Option SkipPauseRequest)
    (hasSourceCb hasResumeCb : Bool) (st : CoreState)
    (henabled : st.isEnabled = true) :
    (CoreAction.handleBreakEnter ∈
        (HandleDebugEvent breakCb hasSourceCb hasResumeCb DebugEvent.AsyncBreak st).2 ↔
      st.shouldPauseOnNextStatement = true) ∧
    (st.shouldPauseOnNextStatement = true →
      HandleDebugEvent breakCb hasSourceCb hasResumeCb DebugEvent.AsyncBreak st =
        ((HandleBreak breakCb hasResumeCb
            { st with shouldPauseOnNextStatement := false }).1,
          CoreAction.processCommandQueue :: CoreAction.handleBreakEnter ::
            (HandleBreak breakCb hasResumeCb
              { st with shouldPauseOnNextStatement := false }).2)) ∧
    (st.shouldPauseOnNextStatement = false →
      HandleDebugEvent breakCb hasSourceCb hasResumeCb DebugEvent.AsyncBreak st =
        (st, [CoreAction.processCommandQueue])) := by
  refine ⟨?_, ?_, ?_⟩
  · cases hflag : st.shouldPauseOnNextStatement with
    | true => simp [HandleDebugEvent, henabled, hflag]
    | false => simp [HandleDebugEvent, henabled, hflag]
  · intro hflag; simp [HandleDebugEvent, henabled, hflag]
  · intro hflag; simp [HandleDebugEvent, henabled, hflag]

/-- Witness for C4 at concrete enabled states, flag set and flag clear. -/
theorem asyncBreak_respects_pause_flag_witness :
    (HandleDebugEvent (some SkipPauseRequest.RequestNoSkip) true true
        DebugEvent.AsyncBreak ⟨true, false, false, true⟩ =
      (⟨true, false, false, false⟩,
        [CoreAction.processCommandQueue, CoreAction.handleBreakEnter,
          CoreAction.breakEventCb, CoreAction.processDeferredGo,
          CoreAction.waitForDebugger, CoreAction.resumeEventCb])) ∧
    (HandleDebugEvent (some SkipPauseRequest.RequestNoSkip) true true
        DebugEvent.AsyncBreak ⟨true, false, false, false⟩ =
      (⟨true, false, false, false⟩, [CoreAction.processCommandQueue])) := by
  constructor
  · have h := (asyncBreak_respects_pause_flag (some SkipPauseRequest.RequestNoSkip)
      true true ⟨true, false, false, true⟩ rfl).2.1 rfl
    rw [h]; decide
  · exact (asyncBreak_respects_pause_flag (some SkipPauseRequest.RequestNoSkip)
      true true ⟨true, false, false, false⟩ rfl).2.2 rfl

/-! ## Engine Adapter error propagation (Debugger.cpp)

Adapter operations wrap engine calls:  most check the returned status with
`IfJsErrorThrow` and throw an `EngineError` (modelled as `Except.error`)
on any nonzero status, the step operations use `IfSeriousJsErrorThrow`
which additionally tolerates `JsErrorDiagNotAtBreak` — but `GetScripts`
(Debugger.cpp 105-124) merely tests `JsDiagGetScripts`'s status and falls
through, returning the empty vector when the status is nonzero, and
`ClearBreakpoints` (Debugger.cpp 340-357) likewise silently does nothing
when `JsDiagGetBreakpoints` fails. -/

/-- A script metadata value as enumerated by `JsDiagGetScripts`; contents
are irrelevant to the claims, only identity matters. -/
structure EngineScript where
  handle : Nat
deriving DecidableEq

/-- `IfJsErrorThrow` (ErrorHelpers): throw on any nonzero status. -/
def IfJsErrorThrow (status : JsErrorCode) : Except JsErrorCode Unit :=
  if status = JsErrorCode.NoError then Except.ok () else Except.error status

/-- `IfSeriousJsErrorThrow` (Debugger.cpp 218-222): throw on any nonzero
status other than `JsErrorDiagNotAtBreak`. -/
def IfSeriousJsErrorThrow (status : JsErrorCode) : Except JsErrorCode Unit :=
  if status ≠ JsErrorCode.NoError ∧ status ≠ JsErrorCode.DiagNotAtBreak then
    Except.error status
  else
    Except.ok ()

/-- `Debugger::RequestAsyncBreak` (Debugger.cpp 94-97): propagates any
nonzero status of `JsDiagRequestAsyncBreak` as an engine error. -/
def RequestAsyncBreak (status : JsErrorCode) : Except JsErrorCode Unit :=
  IfJsErrorThrow status

/-- `Debugger::StepIn`'s status handling (Debugger.cpp 224-228): the
`JsDiagSetStepType` status goes through `IfSeriousJsErrorThrow`, so the
"not at break" code is tolerated. -/
def StepInStatusCheck (status : JsErrorCode) : Except JsErrorCode Unit :=
  IfSeriousJsErrorThrow status

/-- `Debugger::GetScripts` (Debugger.cpp 105-124): `enumStatus` and
`scriptsArray` are the status and array produced by `JsDiagGetScripts`.
The status is only *tested*: on a nonzero status the loop is skipped and
the empty vector is returned — no error is raised. -/
def GetScripts (enumStatus : JsErrorCode) (scriptsArray : List EngineScript) :
    List EngineScript :=
  if enumStatus = JsErrorCode.NoError then scriptsArray else []

/-- `Debugger::ClearBreakpoints` (Debugger.cpp 340-357): returns the ids it
asks the engine to remove; when `JsDiagGetBreakpoints` fails, nothing. -/
def ClearBreakpoints (getBpStatus : JsErrorCode) (breakpointIds : List Int) :
    List Int :=
  if getBpStatus = JsErrorCode.NoError then breakpointIds else []

/-- The claim, stated as a refinement target following the spec words: a
`getScripts` that fails with the engine error on nonzero status. -/
def GetScriptsSpec (enumStatus : JsErrorCode) (scriptsArray : List EngineScript) :
    Except JsErrorCode (List EngineScript) :=
  if enumStatus = JsErrorCode.NoError then Except.ok scriptsArray
  else Except.error enumStatus

/-- C5 counterexample: when the engine's script enumeration returns the
nonzero status `other 1` while one script is available, the claim requires
`getScripts` to fail with that engine error, but the code returns the
(empty) result list without failing. -/
theorem getScripts_swallows_error :
    GetScripts (JsErrorCode.other 1) [⟨7⟩] = [] ∧
    GetScriptsSpec (JsErrorCode.other 1) [⟨7⟩] =
      Except.error (JsErrorCode.other 1) ∧
    ¬ GetScriptsSpec (JsErrorCode.other 1) [⟨7⟩] =
      Except.ok (GetScripts (JsErrorCode.other 1) [⟨7⟩]) := by
  refine ⟨by decide, by rfl, by simp [GetScriptsSpec, GetScripts]⟩

/-- C5 (amended): on a nonzero engine status, operations guarded by
`IfJsErrorThrow` (such as `RequestAsyncBreak`) fail with the engine code,
the step operations tolerate exactly the "not at break" code, but
`GetScripts` never fails — it returns the empty list — and
`ClearBreakpoints` silently removes nothing when the breakpoint
enumeration fails. -/
theorem engine_status_propagation (status : JsErrorCode)
    (scriptsArray : List EngineScript) (breakpointIds : List Int)
    (hnz : status ≠ JsErrorCode.NoError) :
    RequestAsyncBreak status = Except.error status ∧
    (StepInStatusCheck status = Except.ok () ↔
      status = JsErrorCode.DiagNotAtBreak) ∧
    GetScripts status scriptsArray = [] ∧
    ClearBreakpoints status breakpointIds = [] := by
  refine ⟨?_, ?_, ?_, ?_⟩
  · simp [RequestAsyncBreak, IfJsErrorThrow, hnz]
  · constructor
    · intro h
      by_contra hne
      simp [StepInStatusCheck, IfSeriousJsErrorThrow, hnz, hne] at h
    · intro h; simp [StepInStatusCheck, IfSeriousJsErrorThrow, h]
  · simp [GetScripts, hnz]
  · simp [ClearBreakpoints, hnz]

/-- Witness for C5 (amended) at the concrete nonzero status `other 1`. -/
theorem engine_status_propagation_witness :
    RequestAsyncBreak (JsErrorCode.other 1) =
      Except.error (JsErrorCode.other 1) ∧
    StepInStatusCheck JsErrorCode.DiagNotAtBreak = Except.ok () ∧
    GetScripts (JsErrorCode.other 1) [⟨7⟩] = [] := by
  refine ⟨(engine_status_propagation (JsErrorCode.other 1) [⟨7⟩] []
      (by decide)).1, ?_, (engine_status_propagation (JsErrorCode.other 1) [⟨7⟩] []
      (by decide)).2.2.1⟩
  exact (engine_status_propagation JsErrorCode.DiagNotAtBreak [] []
      (by decide)).2.1.mpr rfl

/-! ## Debugger Agent enable (DebuggerImpl.cpp 56-95, 430-488)

`DebuggerImpl::enable` guards on `m_isEnabled`, then engages the core,
installs the three handlers and replays `HandleSourceEvent` for every
already-loaded script.  `HandleSourceEvent` emits `scriptParsed` (or
`scriptFailedToParse`), inserts the script into the script map and
re-attempts resolution of every breakpoint; the engine side of resolution
(`TryLoadScript` / `TryResolveBreakpoint`) is abstracted as a `resolver`
function returning the updated record on success. -/

/-- A script record as stored in `m_scriptMap`; only the identity fields
matter for the claims. -/
structure ScriptRecord where
  scriptId : String
  url : String
deriving DecidableEq

/-- Notifications the Debugger Agent pushes to the frontend channel. -/
inductive AgentNote where
  | scriptParsed (scriptId : String)
  | scriptFailedToParse (scriptId : String)
  | breakpointResolved (key : String)
deriving DecidableEq

/-- The `DebuggerImpl` instance state. -/
structure AgentState where
  isEnabled : Bool
  scriptMap : List (String × ScriptRecord)
  breakpointMap : List (String × DebuggerBreakpoint)
  handlersInstalled : Bool
  shouldSkipAllPauses : Bool
deriving DecidableEq

/-- `std::map::emplace`: inserts only when the key is absent. -/
def insertIfAbsent (m : List (String × ScriptRecord)) (k : String)
    (v : ScriptRecord) : List (String × ScriptRecord) :=
  if (m.find? (fun p => p.1 = k)).isSome then m else m ++ [(k, v)]

/-- `DebuggerImpl::HandleSourceEvent` (DebuggerImpl.cpp 430-488): emit the
parse notification, insert the script, re-attempt resolution of every
breakpoint and emit `breakpointResolved` for each newly resolved one. -/
def HandleSourceEvent
    (resolver : DebuggerBreakpoint → ScriptRecord → Option DebuggerBreakpoint)
    (script : ScriptRecord) (success : Bool) (st : AgentState) :
    AgentState × List AgentNote :=
  let note :=
    if success then AgentNote.scriptParsed script.scriptId
    else AgentNote.scriptFailedToParse script.scriptId
  let scriptMap2 := insertIfAbsent st.scriptMap script.scriptId script
  let resolved := st.breakpointMap.foldl
    (fun acc p =>
      match resolver p.2 script with
      | some bp2 => (acc.1 ++ [(p.1, bp2)], acc.2 ++ [AgentNote.breakpointResolved p.1])
      | none => (acc.1 ++ [p], acc.2))
    ([], [])
  ({ st with scriptMap := scriptMap2, breakpointMap := resolved.1 },
    note :: resolved.2)

/-- One iteration of the replay loop in `DebuggerImpl::enable`. -/
def enableStep
    (resolver : DebuggerBreakpoint → ScriptRecord → Option DebuggerBreakpoint)
    (acc : AgentState × List AgentNote) (script : ScriptRecord) :
    AgentState × List AgentNote :=
  let r := HandleSourceEvent resolver script true acc.1
  (r.1, acc.2 ++ r.2)

/-- `DebuggerImpl::enable` (DebuggerImpl.cpp 56-76): no-op when already
enabled; otherwise set the flag, engage the core, install the handlers and
replay every script already returned by `Debugger::GetScripts`. -/
def agentEnable
    (resolver : DebuggerBreakpoint → ScriptRecord → Option DebuggerBreakpoint)
    (scripts : List ScriptRecord) (st : AgentState) :
    Response × AgentState × List AgentNote :=
  if st.isEnabled then
    (Response.ok, st, [])
  else
    let st1 := { st with isEnabled := true, handlersInstalled := true }
    let r := scripts.foldl (enableStep resolver) (st1, [])
    (Response.ok, r.1, r.2)

theorem handleSourceEvent_isEnabled
    (resolver : DebuggerBreakpoint → ScriptRecord → Option DebuggerBreakpoint)
    (script : ScriptRecord) (success : Bool) (st : AgentState) :
    (HandleSourceEvent resolver script success st).1.isEnabled = st.isEnabled :=
  rfl

theorem enableFold_isEnabled
    (resolver : DebuggerBreakpoint → ScriptRecord → Option DebuggerBreakpoint)
    (scripts : List ScriptRecord) :
    ∀ acc : AgentState × List AgentNote,
      (scripts.foldl (enableStep resolver) acc).1.isEnabled = acc.1.isEnabled := by
  induction scripts with
  | nil => intro acc; rfl
  | cons s t ih =>
    intro acc
    rw [List.foldl_cons, ih]
    exact handleSourceEvent_isEnabled resolver s true acc.1

theorem agentEnable_sets_enabled
    (resolver : DebuggerBreakpoint → ScriptRecord → Option DebuggerBreakpoint)
    (scripts : List ScriptRecord) (st : AgentState) :
    (agentEnable resolver scripts st).2.1.isEnabled = true := by
  unfold agentEnable
  by_cases h : st.isEnabled
  · simp [h]
  · simp only [h, if_neg, Bool.false_eq_true, if_false]
    rw [enableFold_isEnabled]

/-- C6: `enable` is idempotent — after any `enable`, a second `enable` on
the resulting state returns OK, leaves the whole agent state (script map,
breakpoint map, handler registrations) unchanged, and emits no
notification at all, in particular no duplicate `scriptParsed`. -/
theorem enable_idempotent
    (resolver : DebuggerBreakpoint → ScriptRecord → Option DebuggerBreakpoint)
    (scripts : List ScriptRecord) (st0 : AgentState) :
    agentEnable resolver scripts (agentEnable resolver scripts st0).2.1 =
      (Response.ok, (agentEnable resolver scripts st0).2.1, []) := by
  have h := agentEnable_sets_enabled resolver scripts st0
  set s1 := (agentEnable resolver scripts st0).2.1 with hs
  simp [agentEnable, h]

/-! ## Object IDs (ProtocolHelpers.cpp 102-116) and decimal formatting

`ProtocolHelpers::GetObjectId` builds the JSON string
`\x7b"handle":N\x7d` with `String::fromInteger`; `ParseObjectId` runs the
generated layer's `StringUtil::parseJSON` and requires the result to be a
JSON object.  Strings are modelled as `List Char` so that the parser can
be written by structural recursion. -/

/-- Big-endian decimal digit list of a natural number (`[0]` for zero). -/
def natDigitsBE (n : Nat) : List Nat :=
  if n = 0 then [0] else (Nat.digits 10 n).reverse

/-- Modelled from the spec: `String::fromInteger` belongs to the generated
CDP serialization layer, which is not among the provided sources; it
formats an integer in decimal. -/
def natChars (n : Nat) : List Char :=
  (natDigitsBE n).map (fun d => Char.ofNat (48 + d))

/-- Decimal rendering of an `Int` (sign then digits). -/
def fromInteger (i : Int) : List Char :=
  if i < 0 then '-' :: natChars i.natAbs else natChars i.toNat

/-- `ProtocolHelpers::GetObjectId` (ProtocolHelpers.cpp 102-105). -/
def GetObjectId (handle : Int) : List Char :=
  '\x7b' :: '"' :: ("handle".toList ++ ('"' :: ':' :: (fromInteger handle ++ ['\x7d'])))

/-! ## Value wrapping (ProtocolHelpers.cpp 28-265)

Raw engine values (`JsValueRef`) are modelled by the inductive `JsVal`;
doubles are abstracted as integers (the only numeric fact the claims use
is the `%.8lf` rendering of integral values).  Engine-produced descriptor
objects — the inputs of `WrapObject`, carrying `type` / `className` /
`value` / `display` / `handle` properties — are modelled by
`JsDescriptor`. -/

inductive JsVal where
  | undef
  | nullv
  | num (d : Int)
  | str (chars : List Char)
  | obj
  | boolean (b : Bool)
  | fn
  | arr
  | errorVal
  | sym
  | arrayBuffer
  | typedArray
  | dataView
deriving DecidableEq

/-- CDP `protocol::Value` as produced by `ToProtocolValue`. -/
inductive PVal where
  | nullv
  | num (d : Int)
  | str (s : String)
  | booleanVal (b : Bool)
  | emptyObj
  | emptyList
deriving DecidableEq

/-- `ToProtocolValue` (ProtocolHelpers.cpp 28-92): undefined/null/function
and the unsupported kinds collapse to null; objects and arrays become
empty containers (a known TODO in the source). -/
def ToProtocolValue : JsVal → PVal
  | JsVal.undef => PVal.nullv
  | JsVal.nullv => PVal.nullv
  | JsVal.num d => PVal.num d
  | JsVal.str p => PVal.str (String.mk p)
  | JsVal.obj => PVal.emptyObj
  | JsVal.boolean b => PVal.booleanVal b
  | JsVal.fn => PVal.nullv
  | JsVal.arr => PVal.emptyList
  | JsVal.errorVal => PVal.nullv
  | JsVal.sym => PVal.nullv
  | JsVal.arrayBuffer => PVal.nullv
  | JsVal.typedArray => PVal.nullv
  | JsVal.dataView => PVal.nullv

/-- CDP `Runtime.RemoteObject`. -/
structure RemoteObject where
  type : String
  subtype : Option String := none
  className : Option String := none
  value : Option PVal := none
  description : Option String := none
  objectId : Option String := none
deriving DecidableEq

/-- `ProtocolHelpers::GetUndefinedObject` (ProtocolHelpers.cpp 324-329). -/
def GetUndefinedObject : RemoteObject := { type := "undefined" }

/-- An engine descriptor object as consumed by `WrapObject`.  `dtype` is
the `type` property; `none` covers both "absent" and "present but
undefined", which WrapObject treats identically. -/
structure JsDescriptor where
  dtype : Option String := none
  className : Option String := none
  value : Option JsVal := none
  display : Option String := none
  handle : Option Int := none
deriving DecidableEq

/-- `GetPropertyStringConvert` on the `value` property: the engine's
JavaScript String() conversion, abstracted as a total rendering.  Only
reached when the descriptor has a `value` but no `display`. -/
def jsValStringConvert : JsVal → String
  | JsVal.undef => "undefined"
  | JsVal.nullv => "null"
  | JsVal.num d => String.mk (fromInteger d)
  | JsVal.str p => String.mk p
  | JsVal.obj => "[object Object]"
  | JsVal.boolean b => if b then "true" else "false"
  | _ => ""

/-- `ProtocolHelpers::WrapObject` (ProtocolHelpers.cpp 217-265): undefined
or missing `type` gives the canonical undefined object; `description` is
required — `display` if present, else the stringified `value`, else the
function throws `"No display string found"`; a `handle` is embedded as
the CDP objectId. -/
def WrapObject (d : JsDescriptor) : Except String RemoteObject :=
  match d.dtype with
  | none => Except.ok GetUndefinedObject
  | some t =>
    let oid := d.handle.map (fun h => String.mk (GetObjectId h))
    let ro : RemoteObject :=
      { type := t
        className := d.className
        value := d.value.map ToProtocolValue }
    match d.display with
    | some disp =>
      Except.ok { ro with description := some disp, objectId := oid }
    | none =>
      match d.value with
      | some v =>
        Except.ok
          { ro with description := some (jsValStringConvert v), objectId := oid }
      | none => Except.error "No display string found"

/-- `ProtocolHelpers::WrapException` (ProtocolHelpers.cpp 267-273). -/
def WrapException (d : JsDescriptor) : Except String RemoteObject :=
  (WrapObject d).map (fun ro => { ro with subtype := some "error" })

/-- The display buffer size of `WrapValue` (ProtocolHelpers.cpp 141). -/
def displayBufMax : Nat := 200

/-- The `%.8lf` rendering of an (integral) double. -/
def numberDisplay (d : Int) : List Char :=
  fromInteger d ++ ('.' :: List.replicate 8 '0')

/-- The JsString branch of `WrapValue` (ProtocolHelpers.cpp 165-176):
copy at most `displayBufMax - 4` characters and append `"..."` exactly
when the value was longer than that. -/
def stringDisplay (p : List Char) : List Char :=
  let copyLen := min (displayBufMax - 4) p.length
  p.take copyLen ++ (if copyLen < p.length then ['.', '.', '.'] else [])

/-- The `type` / `display` pair `WrapValue` computes per value kind;
`none` for the kinds the function refuses to wrap. -/
def typeAndDisplay : JsVal → Option (String × List Char)
  | JsVal.undef => some ("undefined", "undefined".toList)
  | JsVal.nullv => some ("null", "null".toList)
  | JsVal.num d => some ("number", numberDisplay d)
  | JsVal.str p => some ("string", stringDisplay p)
  | JsVal.obj => some ("object", "\x7b...\x7d".toList)
  | JsVal.boolean b =>
    some ("boolean", if b then "true".toList else "false".toList)
  | JsVal.fn => some ("function", "f() \x7b...\x7d".toList)
  | JsVal.arr => some ("array", "[...]".toList)
  | JsVal.errorVal => none
  | JsVal.sym => none
  | JsVal.arrayBuffer => none
  | JsVal.typedArray => none
  | JsVal.dataView => none

/-- `ProtocolHelpers::WrapValue` (ProtocolHelpers.cpp 118-215): synthesize
a descriptor carrying the raw value, the computed type and the truncated
display string, then wrap it via `WrapObject`.  Errors, symbols, array
buffers, typed arrays and data views are refused.  (The descriptor also
carries a `name` property `"[value]"`, which `WrapObject` ignores.) -/
def WrapValue (v : JsVal) : Except String RemoteObject :=
  match typeAndDisplay v with
  | none => Except.error "WrapValue cannot wrap this type"
  | some (t, disp) =>
    WrapObject
      { dtype := some t
        value := some v
        display := some (String.mk disp) }

/-- C8: `WrapValue` on a string longer than the 196-character copy cap
(`displayBufMax - 4`) yields a RemoteObject whose description is the
196-character cut followed by `"..."` — length at most 200 and ending in
the ellipsis — while a string of at most 196 characters is kept whole
with nothing appended. -/
theorem wrapValue_string_truncation (p : List Char) :
    WrapValue (JsVal.str p) = Except.ok
      { type := "string"
        value := some (PVal.str (String.mk p))
        description := some (String.mk (stringDisplay p)) } ∧
    (displayBufMax - 4 < p.length →
      stringDisplay p = p.take (displayBufMax - 4) ++ ['.', '.', '.'] ∧
      (stringDisplay p).length ≤ 200 ∧
      List.IsSuffix ['.', '.', '.'] (stringDisplay p)) ∧
    (p.length ≤ displayBufMax - 4 → stringDisplay p = p) := by
  refine ⟨by simp [WrapValue, typeAndDisplay, WrapObject, ToProtocolValue], ?_, ?_⟩
  · intro hlong
    have hmin : min (displayBufMax - 4) p.length = displayBufMax - 4 :=
      Nat.min_eq_left (Nat.le_of_lt hlong)
    have hlt : displayBufMax - 4 < p.length := hlong
    have heq : stringDisplay p = p.take (displayBufMax - 4) ++ ['.', '.', '.'] := by
      simp only [stringDisplay, hmin, if_pos hlt]
    refine ⟨heq, ?_, ?_⟩
    · rw [heq]
      have : (p.take (displayBufMax - 4)).length ≤ displayBufMax - 4 :=
        le_of_eq_of_le (List.length_take _ _) (Nat.min_le_left _ _)
      simp only [List.length_append, List.length_cons, List.length_nil]
      have hbuf : displayBufMax - 4 = 196 := by decide
      omega
    · rw [heq]
      exact ⟨p.take (displayBufMax - 4), rfl⟩
  · intro hshort
    have hmin : min (displayBufMax - 4) p.length = p.length :=
      Nat.min_eq_right hshort
    simp [stringDisplay, hmin]

/-- Witness for C8 at a concrete 1000-character string and a concrete
short string. -/
theorem wrapValue_string_truncation_witness :
    stringDisplay (List.replicate 1000 'a') =
      List.replicate 196 'a' ++ ['.', '.', '.'] ∧
    (stringDisplay (List.replicate 1000 'a')).length ≤ 200 ∧
    List.IsSuffix ['.', '.', '.'] (stringDisplay (List.replicate 1000 'a')) ∧
    stringDisplay "hi".toList = "hi".toList := by
  have h := wrapValue_string_truncation (List.replicate 1000 'a')
  have hlong : displayBufMax - 4 < (List.replicate 1000 'a').length := by
    rw [List.length_replicate]; decide
  have h2 := h.2.1 hlong
  have hshort := (wrapValue_string_truncation "hi".toList).2.2 (by decide)
  refine ⟨?_, h2.2.1, h2.2.2, hshort⟩
  rw [h2.1, List.take_replicate]
  norm_num [displayBufMax]

/-! ## Runtime.evaluate (RuntimeImpl.cpp 49-222)

The engine calls the body can make are recorded in an ordered trace of
`EngineOp`s, and their results are prescribed by an `EvalOracle`.  An
empty trace means the engine was never entered, hence its state is
unchanged.  A C++ exception escaping the body (a wrapping failure) is the
`thrown` outcome. -/

/-- CDP `Runtime.ExceptionDetails` (the fields this file reads). -/
structure ExcDetails where
  lineNumber : Int
  columnNumber : Int
  exceptionId : Int
  text : String
  exception : Option RemoteObject := none
deriving DecidableEq

/-- How `evaluate` ends: `sendSuccess`, `sendFailure`, or a C++ exception
escaping the method. -/
inductive EvalOutcome where
  | success (result : RemoteObject) (details : Option ExcDetails)
  | failure (msg : String)
  | thrown (msg : String)
deriving DecidableEq

/-- Engine calls the body of `evaluate` can make, in order. -/
inductive EngineOp where
  | pointerToString
  | diagEvaluate
  | runScript
  | getAndClearException
deriving DecidableEq

/-- Prescribed results of the engine calls. -/
structure EvalOracle where
  pointerToStringStatus : JsErrorCode
  diagEvalStatus : JsErrorCode
  diagEvalResult : JsDescriptor
  runScriptStatus : JsErrorCode
  runScriptIsObject : Bool
  runScriptHasErrorProp : Bool
  runScriptErrorText : Option String
  runScriptValue : JsVal
  hasExcInfo : Bool
  excMetaLine : Int
  excMetaColumn : Int
  excMetaMessage : String
deriving DecidableEq

/-- Arguments of `Runtime.evaluate` read by the body. -/
structure EvaluateArgs where
  expression : List Char
  silent : Option Bool := none
  awaitPromise : Option Bool := none
  throwOnSideEffect : Option Bool := none
deriving DecidableEq

/-- The `ErrorResult` lambda (RuntimeImpl.cpp 62-87): in silent mode the
message becomes a successful response carrying a synthetic error object
and details; otherwise a failure. -/
def errorResult (silent : Option Bool) (msg : String) : EvalOutcome :=
  if silent.getD false then
    EvalOutcome.success
      { type := "error"
        className := some "Error"
        description := some msg
        subtype := some "error" }
      (some { lineNumber := -1, columnNumber := -1, exceptionId := 0, text := msg })
  else
    EvalOutcome.failure msg

/-- The backslash/double-quote escaping applied to the expression before
embedding it in the global-evaluation wrapper
(`std::regex_replace(expr, L"[\"\\\\]", L"\\$0")`). -/
def escapeExpr (s : List Char) : List Char :=
  s.foldr (fun c acc =>
    if c = '"' ∨ c = '\\' then '\\' :: c :: acc else c :: acc) []

/-- The wrapper source built for global evaluation (RuntimeImpl.cpp
151-153): `try\x7b(\x7bvalue:eval("<escaped>")\x7d)\x7dcatch(e)\x7b(\x7berror:e\x7d)\x7d`. -/
def wrappedExpr (expr : List Char) : List Char :=
  "try\x7b(\x7bvalue:eval(\"".toList ++ escapeExpr expr
    ++ "\")\x7d)\x7dcatch(e)\x7b(\x7berror:e\x7d)\x7d".toList

/-- The synthetic side-effect message (RuntimeImpl.cpp 97). -/
def sideEffectText : String := "Possible side effects of expression evaluation"

/-- `RuntimeImpl::evaluate` (RuntimeImpl.cpp 49-222). -/
def RuntimeEvaluate (args : EvaluateArgs) (eng : EvalOracle) :
    EvalOutcome × List EngineOp :=
  -- throwOnSideEffect: synthetic exception details, nothing evaluated
  if args.throwOnSideEffect.getD false then
    (EvalOutcome.success GetUndefinedObject
      (some { lineNumber := -1, columnNumber := -1, exceptionId := 0,
              text := sideEffectText }), [])
  -- awaitPromise: not implemented
  else if args.awaitPromise.getD false then
    (errorResult args.silent "Not implemented", [])
  else
    -- JsPointerToString on the expression
    if eng.pointerToStringStatus ≠ JsErrorCode.NoError then
      (errorResult args.silent "Script parse failed", [EngineOp.pointerToString])
    else
      -- JsDiagEvaluate in frame 0
      let ops0 := [EngineOp.pointerToString, EngineOp.diagEvaluate]
      if eng.diagEvalStatus = JsErrorCode.ScriptException ∨
          eng.diagEvalStatus = JsErrorCode.ScriptCompile then
        match WrapException eng.diagEvalResult with
        | Except.ok w =>
          (EvalOutcome.success GetUndefinedObject
            (some { lineNumber := -1, columnNumber := -1, exceptionId := 0,
                    text := "Exception", exception := some w }), ops0)
        | Except.error m => (EvalOutcome.thrown m, ops0)
      else if eng.diagEvalStatus = JsErrorCode.NoError then
        match WrapObject eng.diagEvalResult with
        | Except.ok w => (EvalOutcome.success w none, ops0)
        | Except.error m => (EvalOutcome.thrown m, ops0)
      else if eng.diagEvalStatus = JsErrorCode.DiagNotAtBreak then
        -- global fallback: JsRunScript on the wrapper source
        let ops1 := ops0 ++ [EngineOp.runScript]
        if eng.runScriptStatus = JsErrorCode.NoError ∧ eng.runScriptIsObject then
          if eng.runScriptHasErrorProp then
            (EvalOutcome.success GetUndefinedObject
              (some { lineNumber := -1, columnNumber := -1, exceptionId := 0,
                      text := eng.runScriptErrorText.getD "Expression error" }),
              ops1)
          else
            match WrapValue eng.runScriptValue with
            | Except.ok w => (EvalOutcome.success w none, ops1)
            | Except.error m => (EvalOutcome.thrown m, ops1)
        else if (eng.runScriptStatus = JsErrorCode.ScriptCompile ∨
            eng.runScriptStatus = JsErrorCode.ScriptException) ∧ eng.hasExcInfo then
          (EvalOutcome.success GetUndefinedObject
            (some { lineNumber := eng.excMetaLine,
                    columnNumber := eng.excMetaColumn, exceptionId := 0,
                    text := eng.excMetaMessage }),
            ops1 ++ [EngineOp.getAndClearException])
        else
          (errorResult args.silent "Script parse failed", ops1)
      else
        (errorResult args.silent "Script parse failed", ops0)

/-- C3: with `throwOnSideEffect = true`, `Runtime.evaluate` returns — for
every expression and every engine behaviour — the successful response
carrying the canonical undefined RemoteObject and exception details whose
text is "Possible side effects of expression evaluation", with an empty
engine trace: no evaluation path is reached and the engine state is
untouched. -/
theorem evaluate_throwOnSideEffect (args : EvaluateArgs) (eng : EvalOracle)
    (h : args.throwOnSideEffect = some true) :
    RuntimeEvaluate args eng =
      (EvalOutcome.success GetUndefinedObject
        (some { lineNumber := -1, columnNumber := -1, exceptionId := 0,
                text := sideEffectText }), []) := by
  simp [RuntimeEvaluate, h]

/-- Witness for C3 at a concrete expression and engine oracle. -/
theorem evaluate_throwOnSideEffect_witness :
    RuntimeEvaluate
      { expression := "globalThis.x=1".toList, throwOnSideEffect := some true }
      { pointerToStringStatus := JsErrorCode.NoError
        diagEvalStatus := JsErrorCode.NoError
        diagEvalResult := {}
        runScriptStatus := JsErrorCode.NoError
        runScriptIsObject := true
        runScriptHasErrorProp := false
        runScriptErrorText := none
        runScriptValue := JsVal.num 1
        hasExcInfo := false
        excMetaLine := 0
        excMetaColumn := 0
        excMetaMessage := "" } =
      (EvalOutcome.success GetUndefinedObject
        (some { lineNumber := -1, columnNumber := -1, exceptionId := 0,
                text := sideEffectText }), []) :=
  evaluate_throwOnSideEffect _ _ rfl

/-! ## Parsing object IDs (ProtocolHelpers.cpp 107-116)

`ParseObjectId` calls the generated layer's `StringUtil::parseJSON` and
requires a JSON object, else it throws `"Invalid object ID"`.  The parser
below is modelled from the spec, which fixes the two recognized forms —
`\x7b"handle":N\x7d` and `\x7b"ordinal":N,"name":"locals"|"globals"\x7d` —
so a JSON-object parser over integer and string field values (no escapes,
no nesting, no whitespace) is a faithful model of the fragment the code
exercises. -/

/-- A JSON field value: integer or string. -/
inductive JsonVal where
  | jint (i : Int)
  | jstr (s : List Char)
deriving DecidableEq

def isDigitCh (c : Char) : Bool :=
  decide (48 ≤ c.toNat ∧ c.toNat ≤ 57)

def digitVal (c : Char) : Nat := c.toNat - 48

/-- Consume a maximal run of decimal digits, accumulating their value. -/
def takeDigits : List Char → Nat → Nat × List Char
  | [], acc => (acc, [])
  | c :: cs, acc =>
    if isDigitCh c then takeDigits cs (acc * 10 + digitVal c)
    else (acc, c :: cs)

/-- Parse a nonempty digit run into a natural number. -/
def parseNatLit : List Char → Option (Nat × List Char)
  | [] => none
  | c :: cs =>
    if isDigitCh c then some (takeDigits (c :: cs) 0) else none

/-- Parse an optionally negated integer literal. -/
def parseIntLit : List Char → Option (Int × List Char)
  | [] => none
  | c :: cs =>
    if c = '-' then (parseNatLit cs).map (fun r => (-(r.1 : Int), r.2))
    else (parseNatLit (c :: cs)).map (fun r => ((r.1 : Int), r.2))

/-- Parse the body of a string literal up to the closing quote. -/
def parseStrBody : List Char → Option (List Char × List Char)
  | [] => none
  | c :: cs =>
    if c = '"' then some ([], cs)
    else (parseStrBody cs).map (fun r => (c :: r.1, r.2))

/-- Parse a field value: a string if it opens with a quote, else an
integer literal. -/
def parseJsonValue : List Char → Option (JsonVal × List Char)
  | [] => none
  | c :: cs =>
    if c = '"' then (parseStrBody cs).map (fun r => (JsonVal.jstr r.1, r.2))
    else (parseIntLit (c :: cs)).map (fun r => (JsonVal.jint r.1, r.2))

/-- Parse the comma-separated fields of an object, up to and including the
closing brace.  `fuel` bounds the recursion by the input length. -/
def parseFields : Nat → List Char → Option (List (List Char × JsonVal) × List Char)
  | 0, _ => none
  | fuel + 1, s =>
    match s with
    | [] => none
    | c :: cs =>
      if c = '"' then
        match parseStrBody cs with
        | none => none
        | some (key, rest1) =>
          match rest1 with
          | [] => none
          | c1 :: rest2 =>
            if c1 = ':' then
              match parseJsonValue rest2 with
              | none => none
              | some (v, rest3) =>
                match rest3 with
                | [] => none
                | c2 :: rest4 =>
                  if c2 = ',' then
                    (parseFields fuel rest4).map (fun r => ((key, v) :: r.1, r.2))
                  else if c2 = '\x7d' then some ([(key, v)], rest4)
                  else none
            else none
      else none

/-- Parse a JSON object (the `parseJSON` + `Value::TypeObject` check). -/
def parseObjChars (s : List Char) :
    Option (List (List Char × JsonVal) × List Char) :=
  match s with
  | [] => none
  | c :: cs => if c = '\x7b' then parseFields (cs.length + 1) cs else none

/-- `ProtocolHelpers::ParseObjectId` (ProtocolHelpers.cpp 107-116): parse
the whole string as JSON, require an object, return its dictionary; throw
`"Invalid object ID"` otherwise. -/
def ParseObjectId (objectId : List Char) :
    Except String (List (List Char × JsonVal)) :=
  match parseObjChars objectId with
  | some (fields, []) => Except.ok fields
  | _ => Except.error "Invalid object ID"

/-- `DictionaryValue` field lookup (`getInteger` and friends). -/
def getField (fields : List (List Char × JsonVal)) (name : List Char) :
    Option JsonVal :=
  (fields.find? (fun p => p.1 = name)).map (fun p => p.2)

/-! ### Round-trip lemmas for decimal digits -/

theorem digitChar_spec (d : Nat) (hd : d < 10) :
    isDigitCh (Char.ofNat (48 + d)) = true ∧
    digitVal (Char.ofNat (48 + d)) = d := by
  interval_cases d <;> exact ⟨by decide, by decide⟩

theorem takeDigits_append :
    ∀ l : List Nat, (∀ d ∈ l, d < 10) →
    ∀ (rest : List Char), (∀ c, rest.head? = some c → isDigitCh c = false) →
    ∀ acc : Nat,
      takeDigits (l.map (fun d => Char.ofNat (48 + d)) ++ rest) acc =
        (l.foldl (fun a d => a * 10 + d) acc, rest) := by
  intro l
  induction l with
  | nil =>
    intro _ rest hrest acc
    simp only [List.map_nil, List.nil_append, List.foldl_nil]
    cases rest with
    | nil => rfl
    | cons c cs =>
      have hc := hrest c rfl
      simp [takeDigits, hc]
  | cons d t ih =>
    intro hl rest hrest acc
    have hd : d < 10 := hl d (List.mem_cons_self d t)
    have hspec := digitChar_spec d hd
    simp only [List.map_cons, List.cons_append, List.foldl_cons]
    rw [takeDigits]
    rw [hspec.1, if_pos rfl, hspec.2]
    exact ih (fun x hx => hl x (List.mem_cons_of_mem d hx)) rest hrest _

theorem foldl_digits_eq_ofDigits (l : List Nat) :
    ∀ acc : Nat, l.foldl (fun a d => a * 10 + d) acc =
      acc * 10 ^ l.length + Nat.ofDigits 10 l.reverse := by
  induction l with
  | nil => intro acc; simp
  | cons d t ih =>
    intro acc
    rw [List.foldl_cons, ih, List.reverse_cons, Nat.ofDigits_append]
    simp only [List.length_cons, List.length_reverse, Nat.ofDigits_singleton]
    ring

theorem natDigitsBE_lt (n : Nat) : ∀ d ∈ natDigitsBE n, d < 10 := by
  intro d hd
  unfold natDigitsBE at hd
  by_cases h0 : n = 0
  · simp [h0] at hd
    omega
  · rw [if_neg h0, List.mem_reverse] at hd
    exact Nat.digits_lt_base (by norm_num) hd

theorem natDigitsBE_foldl (n : Nat) :
    (natDigitsBE n).foldl (fun a d => a * 10 + d) 0 = n := by
  unfold natDigitsBE
  by_cases h0 : n = 0
  · simp [h0]
  · rw [if_neg h0, foldl_digits_eq_ofDigits, List.reverse_reverse,
      Nat.ofDigits_digits]
    simp

theorem natDigitsBE_ne_nil (n : Nat) : natDigitsBE n ≠ [] := by
  unfold natDigitsBE
  by_cases h0 : n = 0
  · simp [h0]
  · rw [if_neg h0]
    simp [Nat.digits_ne_nil_iff_ne_zero.mpr h0]

theorem takeDigits_natChars (n : Nat) (rest : List Char)
    (hrest : ∀ c, rest.head? = some c → isDigitCh c = false) :
    takeDigits (natChars n ++ rest) 0 = (n, rest) := by
  unfold natChars
  rw [takeDigits_append (natDigitsBE n) (natDigitsBE_lt n) rest hrest 0,
    natDigitsBE_foldl]

theorem natChars_head_digit (n : Nat) :
    ∃ c cs, natChars n = c :: cs ∧ isDigitCh c = true := by
  obtain ⟨d, t, hdt⟩ := List.exists_cons_of_ne_nil (natDigitsBE_ne_nil n)
  have hmem : d ∈ natDigitsBE n := by
    rw [hdt]
    exact List.mem_cons_self d t
  refine ⟨Char.ofNat (48 + d), t.map (fun x => Char.ofNat (48 + x)), ?_, ?_⟩
  · rw [natChars, hdt, List.map_cons]
  · exact (digitChar_spec d (natDigitsBE_lt n d hmem)).1

theorem parseNatLit_natChars (n : Nat) (rest : List Char)
    (hrest : ∀ c, rest.head? = some c → isDigitCh c = false) :
    parseNatLit (natChars n ++ rest) = some (n, rest) := by
  obtain ⟨c, cs, hcons, hdig⟩ := natChars_head_digit n
  rw [hcons, List.cons_append, parseNatLit, if_pos hdig, ← List.cons_append,
    ← hcons, takeDigits_natChars n rest hrest]

theorem parseIntLit_fromInteger (i : Int) (rest : List Char)
    (hrest : ∀ c, rest.head? = some c → isDigitCh c = false) :
    parseIntLit (fromInteger i ++ rest) = some (i, rest) := by
  by_cases hneg : i < 0
  · rw [fromInteger, if_pos hneg, List.cons_append, parseIntLit, if_pos rfl,
      parseNatLit_natChars i.natAbs rest hrest]
    simp only [Option.map_some']
    congr 1
    have : (i.natAbs : Int) = -i := by omega
    rw [this]
    simp
  · obtain ⟨c, cs, hcons, hdig⟩ := natChars_head_digit i.toNat
    have hcm : ¬ c = '-' := by
      intro h
      rw [h] at hdig
      exact absurd hdig (by decide)
    rw [fromInteger, if_neg hneg, hcons, List.cons_append, parseIntLit,
      if_neg hcm, ← List.cons_append, ← hcons,
      parseNatLit_natChars i.toNat rest hrest]
    simp only [Option.map_some']
    congr 2
    omega

theorem fromInteger_head_not_quote (i : Int) :
    ∃ c cs, fromInteger i = c :: cs ∧ ¬ c = '"' := by
  by_cases hneg : i < 0
  · exact ⟨'-', natChars i.natAbs, by rw [fromInteger, if_pos hneg], by decide⟩
  · obtain ⟨c, cs, hcons, hdig⟩ := natChars_head_digit i.toNat
    refine ⟨c, cs, by rw [fromInteger, if_neg hneg, hcons], ?_⟩
    intro h
    rw [h] at hdig
    exact absurd hdig (by decide)

theorem parseJsonValue_fromInteger (i : Int) (rest : List Char)
    (hrest : ∀ c, rest.head? = some c → isDigitCh c = false) :
    parseJsonValue (fromInteger i ++ rest) = some (JsonVal.jint i, rest) := by
  obtain ⟨c, cs, hcons, hq⟩ := fromInteger_head_not_quote i
  rw [hcons, List.cons_append, parseJsonValue, if_neg hq, ← List.cons_append,
    ← hcons, parseIntLit_fromInteger i rest hrest]
  rfl

theorem parseStrBody_append (key : List Char) (hkey : ∀ c ∈ key, ¬ c = '"')
    (rest : List Char) :
    parseStrBody (key ++ '"' :: rest) = some (key, rest) := by
  induction key with
  | nil => simp [parseStrBody]
  | cons c cs ih =>
    have hc := hkey c (List.mem_cons_self c cs)
    rw [List.cons_append, parseStrBody, if_neg hc,
      ih (fun x hx => hkey x (List.mem_cons_of_mem c hx))]
    rfl

/-- C7: for every integer handle, building an object id with
`GetObjectId` and parsing it back with `ParseObjectId` yields exactly the
one-entry dictionary whose `"handle"` field carries the original handle —
the handle round-trips through the opaque JSON object-id encoding. -/
theorem objectId_roundTrip (n : Int) :
    ParseObjectId (GetObjectId n) =
      Except.ok [("handle".toList, JsonVal.jint n)] ∧
    getField [("handle".toList, JsonVal.jint n)] "handle".toList =
      some (JsonVal.jint n) := by
  constructor
  · have hrest : ∀ c, (['\x7d'] : List Char).head? = some c →
        isDigitCh c = false := by
      intro c hc
      simp only [List.head?_cons, Option.some.injEq] at hc
      rw [← hc]
      decide
    have hval := parseJsonValue_fromInteger n ['\x7d'] hrest
    have hkey : ∀ c ∈ "handle".toList, ¬ c = '"' := by decide
    have hstr := parseStrBody_append "handle".toList hkey
      (':' :: (fromInteger n ++ ['\x7d']))
    rw [ParseObjectId, GetObjectId, parseObjChars, if_pos rfl, parseFields,
      if_pos rfl, hstr]
    simp only [if_pos rfl]
    rw [hval]
    rfl
  · rfl

end JsDebug
